import Mathlib

/-!
Verification of the deere-connector synchronization engine.

This file gives a shallow embedding of the core of the repository:

* `app/auth.py`    — token expiry check and `get_valid_token`;
* `app/jdoc_api.py` — the JDOC client (`get_organizations`,
  `check_connections_needed`, `get_fields`, `get_field_operations`) and the
  pure transform `normalize_operation`;
* `app/database.py` — the row stores (`user_tokens`, `connected_organizations`,
  `field_sync_state`, `organizations`, `fields`, `operations_raw`,
  `operations_normalized`) with their upsert/select primitives;
* `app/main.py`    — the sync endpoints `get_field_operations_with_sync`,
  `sync_farmer_data` and `get_farmer_snapshot`.

Modelling conventions:

* Remote HTTP calls are abstracted by an environment (`Env`, `AuthEnv`) whose
  functions return `Except String α`: `.error` stands for any exception raised
  by `_make_request` (missing token, 401/403, non-200, timeout).
* Wall-clock time is a `Clock`: an integer instant (seconds) plus an abstract
  ISO rendering `isoOf`; ISO-8601 parsing (`datetime.fromisoformat`) is an
  explicit parameter `parseIso : String → Option Int` so that parse failure is
  observable.
* Numeric JSON payload values are modelled as `Int`; Python truthiness of
  strings/numbers (`None`, `""`, `0` falsy) is modelled explicitly.
* Database writes are reified as an ordered effect trace (`Eff`), and
  `applyEff` replays a trace against a `DB` value replicating the SQLite
  upsert/insert semantics (including the fact that a NULL key never conflicts
  and that inserting a NULL into a NOT NULL key column makes the write a
  no-op at the callers that swallow the resulting exception).  Store-internal
  failure modes beyond that are out of scope, as the spec treats the
  relational store as an abstract collaborator exposing row primitives.
-/

namespace DeereConnector

/-- Python truthiness of an optional string: `None` and `""` are falsy. -/
def truthyStr : Option String → Bool
  | none => false
  | some s => !(s == "")

/-- Python `a or b` on optional strings (first operand wins when truthy). -/
def pyOrStr (a b : Option String) : Option String :=
  if truthyStr a then a else b

/-- Python truthiness of an optional number: `None` and `0` are falsy. -/
def truthyInt : Option Int → Bool
  | none => false
  | some n => !(n == 0)

/-- Python `a or b` on optional numbers. -/
def pyOrInt (a b : Option Int) : Option Int :=
  if truthyInt a then a else b

/-- Keep an optional string only when truthy (`if not x: continue` guards). -/
def truthyOpt (o : Option String) : Option String :=
  if truthyStr o then o else none

/-- Python `str(x)` on an optional string: `None` prints as `"None"`.
Used where the source interpolates possibly-missing ids into URLs. -/
def pyStr : Option String → String
  | none => "None"
  | some s => s

/-- Python `d.get(k, default)` where the default is itself optional. -/
def dictGetD (v d : Option String) : Option String :=
  match v with
  | some x => some x
  | none => d

/-- One element of a raw operation's `varieties` list (`jdoc_api.py`). -/
structure Variety where
  name : Option String
  productType : Option String
  deriving Repr, DecidableEq

/-- One element of a raw operation's `tillageProducts` list. -/
structure TillageProduct where
  tillageType : Option String
  deriving Repr, DecidableEq

/-- A vendor `area` object: `valueAsDouble` / `value` / `unit`. -/
structure AreaObj where
  valueAsDouble : Option Int
  value : Option Int
  unit : Option String
  deriving Repr, DecidableEq

/-- A raw JDOC field-operation record, restricted to the keys the repository
reads.  `varieties`/`tillageProducts` absent or null is modelled as `[]`
(the source guards with `raw.get(k) or []`). `startTime`/`endTime` are the
keys read by `Database.upsert_raw_operation`; `startDate`/`endDate` are the
keys read by `normalize_operation`. -/
structure RawOp where
  id : Option String := none
  fieldOperationType : Option String := none
  startDate : Option String := none
  endDate : Option String := none
  startTime : Option String := none
  endTime : Option String := none
  cropName : Option String := none
  varieties : List Variety := []
  tillageProducts : List TillageProduct := []
  area : Option AreaObj := none
  deriving Repr, DecidableEq

/-- `app/models.py` `NormalizedOperation` (pydantic model), verbatim field set.
`date` is an instant (`datetime` modelled as integer seconds). -/
structure NormalizedOperation where
  field_id : String
  field_name : String
  org_id : String
  org_name : String
  operation_type : String
  date : Int
  crop_name : Option String := none
  product_name : Option String := none
  amount : Option Int := none
  rate : Option Int := none
  rate_unit : Option String := none
  area : Option Int := none
  area_unit : Option String := none
  raw_jdoc_data : Option RawOp := none
  deriving Repr, DecidableEq

/-- `normalize_operation` (`app/jdoc_api.py` lines 161–267).  `parseIso`
stands for `datetime.fromisoformat` (`none` = raises), `utcNow` for
`datetime.utcnow()`.  As in the source, `product_category` and
`tillage_detail` are computed but do not flow into the result. -/
def normalize_operation (parseIso : String → Option Int) (utcNow : Int)
    (raw_operation : RawOp) (field_id field_name org_id org_name : String) :
    NormalizedOperation :=
  let operation_type : String :=
    if raw_operation.fieldOperationType == some "seeding" then "PLANTING"
    else if raw_operation.fieldOperationType == some "harvest" then "HARVEST"
    else if raw_operation.fieldOperationType == some "tillage" then "TILLAGE"
    else if raw_operation.fieldOperationType == some "application" then "FERTILIZER"
    else "OTHER"
  let start_iso := raw_operation.startDate
  let end_iso := raw_operation.endDate
  let date_value := pyOrStr start_iso end_iso
  let date_parsed : Int :=
    if truthyStr date_value then
      match date_value with
      | some s => (parseIso (s.replace "Z" "+00:00")).getD utcNow
      | none => utcNow
    else utcNow
  let crop_name := raw_operation.cropName
  let prod : Option String × Option String :=
    match raw_operation.varieties with
    | [] => (none, none)
    | first_var :: _ => (first_var.name, first_var.productType)
  let product_name := prod.1
  let product_category := prod.2
  let tillage_detail : Option String :=
    match raw_operation.tillageProducts with
    | [] => none
    | first_tillage :: _ => first_tillage.tillageType
  let ar : Option Int × Option String :=
    match raw_operation.area with
    | none => (none, none)
    | some area_obj =>
        (pyOrInt area_obj.valueAsDouble area_obj.value,
         some ((pyOrStr area_obj.unit (some "ha")).getD "ha"))
  let _ := product_category
  let _ := tillage_detail
  { field_id := field_id
    field_name := field_name
    org_id := org_id
    org_name := org_name
    operation_type := operation_type
    date := date_parsed
    crop_name := crop_name
    product_name := product_name
    amount := none
    rate := none
    rate_unit := none
    area := ar.1
    area_unit := ar.2
    raw_jdoc_data := some raw_operation }

/-- `organizations`/`fields` link object in a JDOC payload. -/
structure Link where
  rel : Option String := none
  uri : Option String := none
  deriving Repr, DecidableEq

/-- A JDOC organization payload, restricted to the keys the repository reads. -/
structure Org where
  id : Option String := none
  name : Option String := none
  type : Option String := none
  countryCode : Option String := none
  timeZone : Option String := none
  links : List Link := []
  deriving Repr, DecidableEq

/-- A JDOC field payload.  `boundaries` is kept as an opaque serialized blob
(the repository only re-serializes it into `geometry_json`). -/
structure FieldData where
  id : Option String := none
  name : Option String := none
  externalId : Option String := none
  area : Option AreaObj := none
  boundaries : Option String := none
  deriving Repr, DecidableEq

/-- A token-set dictionary as produced by the token endpoint wrappers
(`exchange_code_for_token` / `refresh_access_token`), after the wrapper added
`expires_at`.  Instants are integer seconds. -/
structure TokenData where
  access_token : String
  refresh_token : Option String := none
  token_type : Option String := none
  scope : Option String := none
  expires_at : Option Int := none
  deriving Repr, DecidableEq

/-- A `user_tokens` row (`app/database.py`). -/
structure TokenRow where
  user_id : String
  access_token : String
  refresh_token : Option String := none
  token_type : Option String := none
  expires_at : Option Int := none
  scopes : Option String := none
  deriving Repr, DecidableEq

/-- A `connected_organizations` row. -/
structure ConnOrgRow where
  user_id : String
  org_id : Option String := none
  org_name : Option String := none
  org_type : Option String := none
  is_enabled : Bool := false
  deriving Repr, DecidableEq

/-- A `field_sync_state` row.  `org_id`/`field_id` are NOT NULL columns, hence
plain strings here; `last_synced_at` is the stored timestamp rendering. -/
structure SyncRow where
  farmer_id : String
  org_id : String
  field_id : String
  field_name : Option String := none
  last_synced_at : Option String := none
  last_sync_mode : Option String := none
  last_sync_start_date : Option String := none
  last_sync_end_date : Option String := none
  deriving Repr, DecidableEq

/-- An `organizations` row. -/
structure OrgRow where
  org_id : Option String := none
  farmer_id : String
  name : Option String := none
  type : Option String := none
  country : Option String := none
  time_zone : Option String := none
  deriving Repr, DecidableEq

/-- A `fields` row. -/
structure FieldRow where
  field_id : Option String := none
  org_id : String
  name : Option String := none
  external_id : Option String := none
  area_ha : Option Int := none
  geometry_json : Option String := none
  deriving Repr, DecidableEq

/-- An `operations_raw` row.  `operation_id` is the TEXT PRIMARY KEY; SQLite
permits NULL there (NULLs never conflict with each other). -/
structure RawRow where
  operation_id : Option String := none
  field_id : String
  org_id : String
  raw_json : RawOp
  event_start : Option String := none
  event_end : Option String := none
  deriving Repr, DecidableEq

/-- A row dictionary built by the endpoints' "adapt to DB schema" step and
consumed by `Database.insert_normalized_operations` (which takes `field_id`
and `org_id` from its own arguments, not from the dictionary). -/
structure DbOpRow where
  operation_id : String
  field_id : String
  org_id : String
  operation_type : String
  operation_date : Int
  start_time : Int
  end_time : Int
  crop_name : Option String := none
  product_name : Option String := none
  product_category : Option String := none
  rate_value : Option Int := none
  rate_unit : Option String := none
  total_amount : Option Int := none
  total_amount_unit : Option String := none
  area_ha : Option Int := none
  equipment_name : Option String := none
  notes : Option String := none
  deriving Repr, DecidableEq

/-- The SQLite database contents (`app/database.py`). -/
structure DB where
  user_tokens : List TokenRow := []
  connected_organizations : List ConnOrgRow := []
  field_sync_state : List SyncRow := []
  organizations : List OrgRow := []
  fields : List FieldRow := []
  operations_raw : List RawRow := []
  operations_normalized : List DbOpRow := []
  deriving Repr, DecidableEq

/-- The empty database (fresh `init_db`). -/
def emptyDB : DB := {}

/-- One database write, in program order.  A trace of these is the observable
persistence behaviour of an endpoint run. -/
inductive Eff where
  | saveToken (user_id : String) (token_data : TokenData)
  | saveOrganization (user_id : String) (org : Org)
  | upsertOrganization (farmer_id : String) (org : Org)
  | upsertField (org_id : String) (field : FieldData)
  | upsertRawOperation (org_id field_id : String) (operation : RawOp)
  | insertNormalizedOperations (org_id field_id : String) (rows : List DbOpRow)
  | saveSyncState (farmer_id : String) (org_id field_id : Option String)
      (field_name : Option String) (sync_mode : String)
      (start_date : Option String) (end_date : String)
  deriving Repr, DecidableEq

/-- Replace the rows matching `sameKey` (unique-keyed, so at most one), or
append — `INSERT ... ON CONFLICT(key) DO UPDATE` / `INSERT OR REPLACE`. -/
def upsertRow {α : Type} (sameKey : α → Bool) (r : α) (rows : List α) : List α :=
  if rows.any sameKey then rows.map (fun x => if sameKey x then r else x)
  else rows ++ [r]

/-- Substring test (Python `needle in str(x)`), via `splitOn`. -/
def strContains (s pat : String) : Bool :=
  (s.splitOn pat).length > 1

/-- `Database.save_organization`: the `is_enabled` flag checks for the
substring `'manage_connection'` in `str(org.get('links', []))`. -/
def linksHaveManageConnection (links : List Link) : Bool :=
  links.any (fun l =>
    strContains (pyStr l.rel) "manage_connection" ||
    strContains (pyStr l.uri) "manage_connection")

/-- Apply one write to the database.  `nowS` renders `datetime.now()` /
`CURRENT_TIMESTAMP` at apply time.  A write that would put NULL into a
NOT NULL key column raises in the source and is swallowed by every caller,
so it leaves the database unchanged here. -/
def applyEff (nowS : String) (db : DB) : Eff → DB
  | .saveToken u t =>
      let row : TokenRow :=
        { user_id := u, access_token := t.access_token,
          refresh_token := t.refresh_token, token_type := t.token_type,
          expires_at := t.expires_at, scopes := t.scope }
      { db with user_tokens := upsertRow (fun r => r.user_id == u) row db.user_tokens }
  | .saveOrganization u org =>
      let row : ConnOrgRow :=
        { user_id := u, org_id := org.id, org_name := org.name,
          org_type := org.type,
          is_enabled := linksHaveManageConnection org.links }
      let sameKey : ConnOrgRow → Bool := fun r => r.user_id == u && r.org_id == org.id
      { db with connected_organizations := upsertRow sameKey row db.connected_organizations }
  | .upsertOrganization fa org =>
      let row : OrgRow :=
        { org_id := org.id, farmer_id := fa, name := org.name,
          type := org.type, country := org.countryCode,
          time_zone := org.timeZone }
      let rows :=
        match org.id with
        | none => db.organizations ++ [row]
        | some k => upsertRow (fun r => r.org_id == some k) row db.organizations
      { db with organizations := rows }
  | .upsertField oid field =>
      let row : FieldRow :=
        { field_id := field.id, org_id := oid, name := field.name,
          external_id := field.externalId,
          area_ha := field.area.bind (fun a => a.value),
          geometry_json := field.boundaries }
      let rows :=
        match field.id with
        | none => db.fields ++ [row]
        | some k => upsertRow (fun r => r.field_id == some k) row db.fields
      { db with fields := rows }
  | .upsertRawOperation oid fid op =>
      let row : RawRow :=
        { operation_id := op.id, field_id := fid, org_id := oid,
          raw_json := op, event_start := op.startTime, event_end := op.endTime }
      let rows :=
        match op.id with
        | none => db.operations_raw ++ [row]
        | some k => upsertRow (fun r => r.operation_id == some k) row db.operations_raw
      { db with operations_raw := rows }
  | .insertNormalizedOperations oid fid rows =>
      let newRows := rows.map (fun d => { d with field_id := fid, org_id := oid })
      { db with operations_normalized := db.operations_normalized ++ newRows }
  | .saveSyncState fa o f fname mode sd ed =>
      match o, f with
      | some o', some f' =>
          let row : SyncRow :=
            { farmer_id := fa, org_id := o', field_id := f',
              field_name := fname, last_synced_at := some nowS,
              last_sync_mode := some mode, last_sync_start_date := sd,
              last_sync_end_date := some ed }
          let sameKey : SyncRow → Bool :=
            fun r => r.farmer_id == fa && r.org_id == o' && r.field_id == f'
          { db with field_sync_state := upsertRow sameKey row db.field_sync_state }
      | _, _ => db

/-- Replay a whole trace. -/
def applyEffs (nowS : String) (db : DB) (tr : List Eff) : DB :=
  tr.foldl (applyEff nowS) db

/-- `Database.get_token`. -/
def db_get_token (db : DB) (user_id : String) : Option TokenRow :=
  db.user_tokens.find? (fun r => r.user_id == user_id)

/-- `Database.get_sync_state` — keys may come in as Python `None`
(`WHERE col = NULL` matches nothing). -/
def db_get_sync_state (db : DB) (farmer_id : String) (org_id field_id : Option String) :
    Option SyncRow :=
  db.field_sync_state.find? (fun r =>
    r.farmer_id == farmer_id && some r.org_id == org_id && some r.field_id == field_id)

/-- Response JSON of the token endpoint for the refresh grant. -/
structure RefreshResp where
  access_token : String
  refresh_token : Option String := none
  token_type : Option String := none
  scope : Option String := none
  expires_in : Option Int := none
  deriving Repr, DecidableEq

/-- The provider's token endpoint, abstracted: `.error` is any non-200. -/
structure AuthEnv where
  refreshResponse : String → Except String RefreshResp

/-- `JohnDeereAuth.is_token_expired` (`app/auth.py` lines 112–119): expired
when `expires_at` is absent, or when fewer than 5 minutes remain. -/
def is_token_expired (now : Int) (token_data : TokenRow) : Bool :=
  match token_data.expires_at with
  | none => true
  | some expires_at => decide (now ≥ expires_at - 5 * 60)

/-- `JohnDeereAuth.refresh_access_token`: POST the refresh grant, raise on
non-200, then stamp `expires_at = now + expires_in` (default 43200 s). -/
def refresh_access_token (env : AuthEnv) (now : Int) (refresh_token : String) :
    Except String TokenData :=
  match env.refreshResponse refresh_token with
  | .error e => .error ("Token refresh failed: " ++ e)
  | .ok r =>
      .ok { access_token := r.access_token, refresh_token := r.refresh_token,
            token_type := r.token_type, scope := r.scope,
            expires_at := some (now + r.expires_in.getD 43200) }

/-- `JohnDeereAuth.get_valid_token` (`app/auth.py` lines 121–150).  Returns
the usable access token (if any) together with the trace of writes. -/
def get_valid_token (env : AuthEnv) (now : Int) (db : DB) (user_id : String) :
    Option String × List Eff :=
  match db_get_token db user_id with
  | none => (none, [])
  | some token_data =>
      if is_token_expired now token_data then
        if truthyStr token_data.refresh_token then
          match refresh_access_token env now (token_data.refresh_token.getD "") with
          | .ok new_token_data =>
              (some new_token_data.access_token, [.saveToken user_id new_token_data])
          | .error _ => (none, [])
        else (none, [])
      else (some token_data.access_token, [])

/-- The JDOC remote API, abstracted at the granularity of
`JDOCClient._make_request` plus the `.get('values', [])` projection:
`.error` is any exception that call raises (no usable token, 401, 403,
other non-200, timeout). -/
structure Env where
  fetchOrganizations : String → Except String (List Org)
  fetchFields : String → String → Bool → Except String (List FieldData)
  fetchFieldOperations : String → String → String → Option String → Option String →
    Except String (List RawOp)

/-- `JDOCClient.get_organizations` (`app/jdoc_api.py` lines 52–67): fetch the
organizations and persist each one (`db.save_organization`) before returning. -/
def get_organizations (env : Env) (user_id : String) :
    Except String (List Org) × List Eff :=
  match env.fetchOrganizations user_id with
  | .error e => (.error e, [])
  | .ok organizations =>
      (.ok organizations, organizations.map (Eff.saveOrganization user_id))

/-- First link with `rel == 'connections'`, scanning organizations in order
and links in order within each organization — the loop of
`check_connections_needed`. -/
def firstConnectionsLink : List Org → Option Link
  | [] => none
  | org :: rest =>
      match org.links.find? (fun link => link.rel == some "connections") with
      | some link => some link
      | none => firstConnectionsLink rest

/-- `JDOCClient.check_connections_needed` (`app/jdoc_api.py` lines 69–84):
calls `get_organizations` (with its persistence side effect), then returns
`link.get('uri')` of the first `connections` link, else `None`. -/
def check_connections_needed (env : Env) (user_id : String) :
    Except String (Option String) × List Eff :=
  match get_organizations env user_id with
  | (.error e, effs) => (.error e, effs)
  | (.ok orgs, effs) => (.ok ((firstConnectionsLink orgs).bind (fun l => l.uri)), effs)

/-- `JDOCClient.get_fields` — a plain fetch (debug prints elided). -/
def get_fields (env : Env) (user_id org_id : String) (include_boundaries : Bool) :
    Except String (List FieldData) :=
  env.fetchFields user_id org_id include_boundaries

/-- `JDOCClient.get_field_operations` — a plain fetch with optional bounds. -/
def get_field_operations (env : Env) (user_id org_id field_id : String)
    (start_date end_date : Option String) : Except String (List RawOp) :=
  env.fetchFieldOperations user_id org_id field_id start_date end_date

/-- Ambient wall clock: the current instant and `datetime.isoformat`
rendering of instants. -/
structure Clock where
  now : Int
  isoOf : Int → String

/-- The full-history window start:
`(datetime.now() - timedelta(days=365*lookback_years)).isoformat() + "Z"`. -/
def fullHistoryStart (c : Clock) (lookback_years : Nat) : String :=
  c.isoOf (c.now - 365 * (lookback_years : Int) * 86400) ++ "Z"

/-- `datetime.now().isoformat() + "Z"`. -/
def nowZ (c : Clock) : String :=
  c.isoOf c.now ++ "Z"

/-- Date-range resolution of `get_field_operations_with_sync`
(`app/main.py` lines 496–523): `none` is the incremental cold-start
fallback (no prior `SyncState`, or one without a recorded
`last_synced_at`); otherwise `(start_date, end_date, sync_mode)`. -/
def resolveWindow (db : DB) (c : Clock) (farmer_id org_id field_id mode : String)
    (lookback_years : Nat) (end_date : Option String) :
    Option (Option String × String × String) :=
  if mode == "incremental" then
    match db_get_sync_state db farmer_id (some org_id) (some field_id) with
    | none => none
    | some sync_state =>
        if truthyStr sync_state.last_synced_at then
          let start_date := sync_state.last_sync_end_date
          let end_date' :=
            match end_date with
            | none => nowZ c
            | some e => e
          some (start_date, end_date', "incremental")
        else none
  else
    let start_date := fullHistoryStart c lookback_years
    let end_date' :=
      match end_date with
      | none => nowZ c
      | some e => e
    some (some start_date, end_date', "full_history")

/-- The field-name lookup shared by the endpoints: list the fields, take the
`name` of the one whose `id` matches, fall back to the field id on any
failure (`try/except: pass`). -/
def lookupFieldName (env : Env) (farmer_id org_id field_id : String)
    (include_boundaries : Bool) : String :=
  match get_fields env farmer_id org_id include_boundaries with
  | .error _ => field_id
  | .ok fields =>
      match fields.find? (fun field => field.id == some field_id) with
      | some field => field.name.getD field_id
      | none => field_id

/-- Response of `get_field_operations_with_sync`: the 202 cold-start
fallback JSON, a success body, or an HTTP 500. -/
inductive SyncResponse where
  | fallback
  | ok (operations : List NormalizedOperation) (sync_mode : String)
      (start_date : Option String) (end_date : String)
  | error (detail : String)
  deriving Repr, DecidableEq

/-- `get_field_operations_with_sync` (`app/main.py` lines 452–587).
Resolve the window per mode (fallback 202 on a cold incremental start),
fetch the raw operations (HTTP 500 on failure, nothing persisted),
normalize each record, then save the field's `SyncState`.  Note the
endpoint persists neither raw nor normalized operations. -/
def get_field_operations_with_sync (env : Env) (c : Clock)
    (parseIso : String → Option Int) (db : DB)
    (field_id org_id farmer_id mode : String) (lookback_years : Nat)
    (end_date : Option String) : SyncResponse × List Eff :=
  match resolveWindow db c farmer_id org_id field_id mode lookback_years end_date with
  | none => (.fallback, [])
  | some (start_date, end_date', sync_mode) =>
      match get_field_operations env farmer_id org_id field_id start_date (some end_date') with
      | .error e => (.error e, [])
      | .ok raw_operations =>
          let field_name := lookupFieldName env farmer_id org_id field_id false
          let normalized_ops := raw_operations.map (fun raw_op =>
            normalize_operation parseIso c.now raw_op field_id field_name org_id org_id)
          (.ok normalized_ops sync_mode start_date end_date',
           [Eff.saveSyncState farmer_id (some org_id) (some field_id)
             (some field_name) sync_mode start_date end_date'])

/-- The "adapt normalized dicts to DB schema" step shared by
`get_normalized_field_operations` and `sync_farmer_data`
(`app/main.py` lines 398–427 and 826–850): the row id is the vendor id from
the raw payload when truthy, else the composite `f"{field_id}-{date}"`. -/
def adaptRow (fid : String) (n : NormalizedOperation) : DbOpRow :=
  let raw_id :=
    match n.raw_jdoc_data with
    | some raw => raw.id
    | none => none
  let composite := fid ++ "-" ++ toString n.date
  let op_id :=
    match pyOrStr raw_id (some composite) with
    | some s => s
    | none => composite
  { operation_id := op_id, field_id := n.field_id, org_id := n.org_id,
    operation_type := n.operation_type, operation_date := n.date,
    start_time := n.date, end_time := n.date,
    crop_name := n.crop_name, product_name := n.product_name,
    product_category := none,
    rate_value := n.rate, rate_unit := n.rate_unit,
    total_amount := n.amount, total_amount_unit := none,
    area_ha := n.area, equipment_name := none, notes := none }

/-- The inner per-field body of `sync_farmer_data` (`app/main.py` lines
785–859): fetch the field's raw operations (a failure skips the field),
upsert each raw record, normalize it, then batch-insert the normalized rows
(only when some exist).  Returns the operation count added to `synced_ops`
and the writes in program order. -/
def syncFieldRun (env : Env) (c : Clock) (parseIso : String → Option Int)
    (farmer_id : String) (start_date end_date : Option String)
    (org : Org) (oid : String) (field : FieldData) (fid : String) :
    Nat × List Eff :=
  match get_field_operations env farmer_id oid fid start_date end_date with
  | .error _ => (0, [])
  | .ok raw_ops =>
      let rawEffs := raw_ops.map (Eff.upsertRawOperation oid fid)
      let normalized_ops := raw_ops.map (fun raw_op =>
        normalize_operation parseIso c.now raw_op fid (field.name.getD fid)
          oid (org.name.getD oid))
      let db_rows := normalized_ops.map (adaptRow fid)
      match db_rows with
      | [] => (0, rawEffs)
      | _ => (db_rows.length, rawEffs ++ [Eff.insertNormalizedOperations oid fid db_rows])

/-- One field of `sync_farmer_data`: skip fields with a falsy id, otherwise
upsert the field row and run the per-field body.  Returns
`(fields counted, operations counted, writes)`. -/
def syncFieldFull (env : Env) (c : Clock) (parseIso : String → Option Int)
    (farmer_id : String) (start_date end_date : Option String)
    (org : Org) (oid : String) (field : FieldData) : Nat × Nat × List Eff :=
  match truthyOpt field.id with
  | none => (0, 0, [])
  | some fid =>
      let r := syncFieldRun env c parseIso farmer_id start_date end_date org oid field fid
      (1, r.1, Eff.upsertField oid field :: r.2)

/-- One organization of `sync_farmer_data`: skip organizations with a falsy
id; count the organization, upsert its row, list its fields (a failure
skips just this organization's fields), and process each field.
Returns `(orgs counted, fields counted, operations counted, writes)`. -/
def syncOrgRun (env : Env) (c : Clock) (parseIso : String → Option Int)
    (farmer_id : String) (start_date end_date : Option String)
    (org : Org) : Nat × Nat × Nat × List Eff :=
  match truthyOpt org.id with
  | none => (0, 0, 0, [])
  | some oid =>
      let orgEff := Eff.upsertOrganization farmer_id org
      match get_fields env farmer_id oid true with
      | .error _ => (1, 0, 0, [orgEff])
      | .ok fields =>
          let results := fields.map
            (syncFieldFull env c parseIso farmer_id start_date end_date org oid)
          (1, (results.map (fun r => r.1)).sum,
           (results.map (fun r => r.2.1)).sum,
           orgEff :: (results.map (fun r => r.2.2)).flatten)

/-- The aggregate report returned by `sync_farmer_data`. -/
structure FarmerSyncResult where
  farmer_id : String
  org_filter : Option String
  synced_organizations : Nat
  synced_fields : Nat
  synced_operations : Nat
  deriving Repr, DecidableEq

/-- `sync_farmer_data` (`app/main.py` lines 730–869): list the farmer's
organizations (persisting each — a failure here is the only way the run
aborts), optionally filter to one organization, then walk
organizations → fields → operations with per-organization and per-field
failure isolation, returning aggregate counts. -/
def sync_farmer_data (env : Env) (c : Clock) (parseIso : String → Option Int)
    (farmer_id : String) (org_id : Option String)
    (start_date end_date : Option String) :
    Except String FarmerSyncResult × List Eff :=
  match get_organizations env farmer_id with
  | (.error e, effs) => (.error e, effs)
  | (.ok orgs0, effs) =>
      let orgs := if truthyStr org_id then orgs0.filter (fun o => o.id == org_id) else orgs0
      let results := orgs.map (syncOrgRun env c parseIso farmer_id start_date end_date)
      (.ok { farmer_id := farmer_id, org_filter := org_id,
             synced_organizations := (results.map (fun r => r.1)).sum,
             synced_fields := (results.map (fun r => r.2.1)).sum,
             synced_operations := (results.map (fun r => r.2.2.1)).sum },
       effs ++ (results.map (fun r => r.2.2.2)).flatten)

/-- Per-field body of `get_farmer_snapshot` (`app/main.py` lines 1005–1063).
In incremental mode a field with no prior `SyncState` (or one without a
recorded sync time) *silently* falls back to the full-history window; after
a successful fetch the field's `SyncState` is saved (with `sync_mode` the
request's `mode`), the save's own failure being swallowed.  A fetch failure
records an empty operation list for the field and saves nothing.  Vendor
ids may be absent; the source interpolates them as Python `str` (`pyStr`). -/
def snapshotFieldRun (env : Env) (c : Clock) (parseIso : String → Option Int)
    (db : DB) (farmer_id mode : String) (lookback_years : Nat)
    (org : Org) (org_id : Option String) (field : FieldData) :
    (Option String × List NormalizedOperation) × List Eff :=
  let field_id := field.id
  let window : Option String × String :=
    if mode == "incremental" then
      match db_get_sync_state db farmer_id org_id field_id with
      | some sync_state =>
          if truthyStr sync_state.last_synced_at then
            (sync_state.last_sync_end_date, nowZ c)
          else (some (fullHistoryStart c lookback_years), nowZ c)
      | none => (some (fullHistoryStart c lookback_years), nowZ c)
    else (some (fullHistoryStart c lookback_years), nowZ c)
  let start_date := window.1
  let end_date := window.2
  match get_field_operations env farmer_id (pyStr org_id) (pyStr field_id)
      start_date (some end_date) with
  | .error _ => ((field_id, []), [])
  | .ok raw_ops =>
      let normalized_ops := raw_ops.map (fun raw_op =>
        normalize_operation parseIso c.now raw_op (pyStr field_id)
          (pyStr (dictGetD field.name field_id)) (pyStr org_id)
          (pyStr (dictGetD org.name org_id)))
      ((field_id, normalized_ops),
       [Eff.saveSyncState farmer_id org_id field_id
         (dictGetD field.name field_id) mode start_date end_date])

/-- Per-organization body of `get_farmer_snapshot`: list the organization's
fields (a failure skips just this organization), then run every field. -/
def snapshotOrgRun (env : Env) (c : Clock) (parseIso : String → Option Int)
    (db : DB) (farmer_id mode : String) (lookback_years : Nat) (org : Org) :
    List (Option String × List NormalizedOperation) × List Eff :=
  let org_id := org.id
  match get_fields env farmer_id (pyStr org_id) true with
  | .error _ => ([], [])
  | .ok fields_raw =>
      let results := fields_raw.map
        (snapshotFieldRun env c parseIso db farmer_id mode lookback_years org org_id)
      (results.map (fun r => r.1), (results.map (fun r => r.2)).flatten)

/-- Response of `get_farmer_snapshot`: 404 when no organizations, an HTTP
500, or the snapshot body.  The snapshot body is modelled as its
`sync_info` echo (`mode`, `lookback_years`) plus the per-field normalized
operations it was assembled from; the Leaf-style hierarchy re-grouping
(`build_leaf_like_hierarchy`) is pure presentation of that same data. -/
inductive SnapResponse where
  | notFound
  | snapshot (farmer_id mode : String) (lookback_years : Nat)
      (operations : List (Option String × List NormalizedOperation))
  | error (detail : String)
  deriving Repr, DecidableEq

/-- `get_farmer_snapshot` (`app/main.py` lines 944–1102): list organizations
(persisting each), 404 if none, then walk every organization and field,
saving per-field `SyncState` as it goes (§ `snapshotFieldRun`). -/
def get_farmer_snapshot (env : Env) (c : Clock) (parseIso : String → Option Int)
    (db : DB) (farmer_id mode : String) (lookback_years : Nat) :
    SnapResponse × List Eff :=
  match get_organizations env farmer_id with
  | (.error e, effs) => (.error e, effs)
  | (.ok orgs_raw, effs) =>
      match orgs_raw with
      | [] => (.notFound, effs)
      | _ =>
          let results := orgs_raw.map
            (snapshotOrgRun env c parseIso db farmer_id mode lookback_years)
          (.snapshot farmer_id mode lookback_years
             ((results.map (fun r => r.1)).flatten),
           effs ++ (results.map (fun r => r.2)).flatten)

/-! ### Trace predicates and database invariants -/

/-- Is the effect a `field_sync_state` write? -/
def isSaveSyncState : Eff → Bool
  | .saveSyncState _ _ _ _ _ _ _ => true
  | _ => false

/-- Is the effect an `operations_normalized` insert? -/
def isInsertNormalized : Eff → Bool
  | .insertNormalizedOperations _ _ _ => true
  | _ => false

/-- Is the effect an `operations_raw` upsert? -/
def isUpsertRawOp : Eff → Bool
  | .upsertRawOperation _ _ _ => true
  | _ => false

/-- Scanner for the claimed watermark ordering: walking the trace, a
normalized insert must be preceded by some raw upsert, and a `SyncState`
write must be preceded by both a raw upsert and a normalized insert. -/
def watermarkGo : List Eff → Bool → Bool → Bool
  | [], _, _ => true
  | .upsertRawOperation _ _ _ :: rest, _, seenNorm => watermarkGo rest true seenNorm
  | .insertNormalizedOperations _ _ _ :: rest, seenRaw, _ =>
      seenRaw && watermarkGo rest seenRaw true
  | .saveSyncState _ _ _ _ _ _ _ :: rest, seenRaw, seenNorm =>
      seenRaw && seenNorm && watermarkGo rest seenRaw seenNorm
  | _ :: rest, seenRaw, seenNorm => watermarkGo rest seenRaw seenNorm

/-- The ordering claimed for a per-field sync trace: raw persistence before
normalized persistence, `SyncState` only after both. -/
def watermarkOrdered (tr : List Eff) : Bool :=
  watermarkGo tr false false

/-- Scanner: every normalized insert for `(org, field)` is preceded by a raw
upsert for the same `(org, field)`. -/
def rpnGo : List Eff → List (String × String) → Bool
  | [], _ => true
  | .upsertRawOperation o f _ :: rest, seen => rpnGo rest ((o, f) :: seen)
  | .insertNormalizedOperations o f _ :: rest, seen =>
      seen.contains (o, f) && rpnGo rest seen
  | _ :: rest, seen => rpnGo rest seen

/-- Within a trace, raw-operation persistence for a field precedes that
field's normalized-operation persistence. -/
def rawPrecedesNormalized (tr : List Eff) : Bool :=
  rpnGo tr []

/-- The trace writes no `field_sync_state` row at all. -/
def noSyncStateWrite (tr : List Eff) : Bool :=
  tr.all (fun e => !isSaveSyncState e)

/-- Raw/normalized traceability of a database state: every
`operations_normalized` row has an `operations_raw` row with the same
`operation_id`. -/
def traceable (db : DB) : Bool :=
  db.operations_normalized.all (fun n =>
    db.operations_raw.any (fun r => r.operation_id == some n.operation_id))

/-- Is some raw row keyed by `k` present? -/
def rawIdPresent (db : DB) (k : String) : Bool :=
  db.operations_raw.any (fun r => r.operation_id == some k)

/-- Scanner justifying traceability along a trace: carrying the raw ids
upserted so far, every normalized insert only uses available ids. -/
def goodTrace : List String → List Eff → Bool
  | _, [] => true
  | ids, .upsertRawOperation _ _ op :: rest =>
      goodTrace (match op.id with | some k => k :: ids | none => ids) rest
  | ids, .insertNormalizedOperations _ _ rows :: rest =>
      rows.all (fun d => ids.contains d.operation_id) && goodTrace ids rest
  | ids, _ :: rest => goodTrace ids rest

/-- Accumulate the raw keys of a fetched batch onto an id list, in
program order. -/
def accKeys (ops : List RawOp) (ids : List String) : List String :=
  ops.foldl (fun acc op => match op.id with | some k => k :: acc | none => acc) ids

/-! ### Spec-side reference functions (stated from the spec/claim wording,
to be compared against the embedded code) -/

/-- The date-choice rule as amended for C7: prefer `startDate`, else
`endDate`; parse the chosen string (after `Z` replacement) and substitute
the current time if it is unparseable or if neither key is truthy. -/
def parseOrNow (parseIso : String → Option Int) (now : Int) (s : String) : Int :=
  (parseIso (s.replace "Z" "+00:00")).getD now

/-- Reference date choice for `normalize_operation` (C7, amended). -/
def chosenDateSpec (parseIso : String → Option Int) (now : Int) (rec : RawOp) : Int :=
  if truthyStr rec.startDate then parseOrNow parseIso now (rec.startDate.getD "")
  else if truthyStr rec.endDate then parseOrNow parseIso now (rec.endDate.getD "")
  else now

/-! ### Environment combinators and concrete fixtures -/

/-- An environment answering every request with fixed data. -/
def constEnv (orgs : List Org) (fields : List FieldData) (ops : List RawOp) : Env :=
  { fetchOrganizations := fun _ => .ok orgs
    fetchFields := fun _ _ _ => .ok fields
    fetchFieldOperations := fun _ _ _ _ _ => .ok ops }

/-- Make one field's operation fetch fail, leaving everything else as-is. -/
def failFieldEnv (env : Env) (u o f : String) : Env :=
  { env with fetchFieldOperations := fun u' o' f' sd ed =>
      if u' == u && o' == o && f' == f then .error "RemoteRequestFailed"
      else env.fetchFieldOperations u' o' f' sd ed }

/-- Make one organization's field listing fail, leaving everything else
as-is. -/
def failOrgFieldsEnv (env : Env) (u o : String) : Env :=
  { env with fetchFields := fun u' o' b =>
      if u' == u && o' == o then .error "RemoteRequestFailed"
      else env.fetchFields u' o' b }

/-- A concrete clock: instant 1000, instants rendered as decimal strings. -/
def cClock : Clock :=
  { now := 1000, isoOf := fun n => toString n }

/-- A concrete total ISO parse (every string parses to instant 42). -/
def cParse : String → Option Int := fun _ => some 42

/-- The spec's normalization example record: a seeding operation on Corn
with one variety `DKC63-42` of product type `SEED`. -/
def seedingRecord : RawOp :=
  { fieldOperationType := some "seeding", cropName := some "Corn",
    varieties := [{ name := some "DKC63-42", productType := some "SEED" }] }

/-- A record carrying its timestamps only under the secondary keys
(`startTime`/`endTime`) read by `upsert_raw_operation`, with
`startDate`/`endDate` absent. -/
def secondaryKeyRecord : RawOp :=
  { startTime := some "2020-04-22T02:00:41.212Z",
    endTime := some "2020-04-22T03:00:00.000Z",
    fieldOperationType := some "harvest" }

/-- A raw operation with no vendor `id`. -/
def noIdOp : RawOp :=
  { fieldOperationType := some "harvest", cropName := some "Corn" }

/-- A raw operation with a vendor `id`. -/
def idOp : RawOp :=
  { id := some "op-1", fieldOperationType := some "harvest" }

/-- Fixture organization/field for concrete runs. -/
def fixOrg : Org := { id := some "org1", name := some "Acme" }

/-- Fixture field. -/
def fixField : FieldData := { id := some "fieldX", name := some "North" }

/-- Fixture organization carrying a `connections` link. -/
def connOrg : Org :=
  { id := some "org2",
    links := [{ rel := some "connections",
                uri := some "https://connections.deere.com/connections/abc" }] }

/-- A record whose `startDate` does not parse as ISO-8601. -/
def badDateOp : RawOp := { startDate := some "notadate" }

/-- A record with a parseable `startDate`. -/
def goodDateOp : RawOp := { startDate := some "2020-01-01T00:00:00Z" }

/-- A batch of five raw operations whose third record has an unparseable
date. -/
def batch5 : List RawOp := [goodDateOp, goodDateOp, badDateOp, goodDateOp, goodDateOp]

/-- A parse function failing exactly on the bad record's date string. -/
def parse5 : String → Option Int := fun s => if s == "notadate" then none else some 77

/-- Environment serving the five-record batch. -/
def env5 : Env := constEnv [fixOrg] [fixField] batch5

/-- Fixture fields A, B, C for the failure-isolation scenario. -/
def fieldA : FieldData := { id := some "fieldA", name := some "A" }

/-- Fixture field B (its fetch will be made to fail). -/
def fieldB : FieldData := { id := some "fieldB", name := some "B" }

/-- Fixture field C. -/
def fieldC : FieldData := { id := some "fieldC", name := some "C" }

/-- Environment with one organization owning fields A, B, C. -/
def c2Env : Env := constEnv [fixOrg] [fieldA, fieldB, fieldC] [goodDateOp]

/-- A database holding one prior `SyncState` for
(farmer1, org1, fieldX) ending at `2024-01-01T00:00:00`. -/
def warmDB : DB :=
  { field_sync_state := [
      { farmer_id := "farmer1", org_id := "org1", field_id := "fieldX",
        field_name := some "North",
        last_synced_at := some "2024-06-01T12:00:00",
        last_sync_mode := some "full_history",
        last_sync_start_date := some "2019-01-01T00:00:00",
        last_sync_end_date := some "2024-01-01T00:00:00" }] }

/-! ### C9 -/

/-- C9: `is_token_expired` returns true exactly when the current time is at
or past `expires_at` minus the 5-minute margin, or when `expires_at` is
absent; with 4 min 59 s remaining it is true, with 5 min 1 s remaining it
is false. -/
theorem C9_expiry_margin :
    (∀ (now : Int) (td : TokenRow),
      is_token_expired now td = true ↔
        (td.expires_at = none ∨ ∃ e, td.expires_at = some e ∧ now ≥ e - 5 * 60)) ∧
    (∀ (now : Int) (u a : String),
      is_token_expired now
        { user_id := u, access_token := a,
          expires_at := some (now + (4 * 60 + 59)) } = true) ∧
    (∀ (now : Int) (u a : String),
      is_token_expired now
        { user_id := u, access_token := a,
          expires_at := some (now + (5 * 60 + 1)) } = false) := by
  refine ⟨fun now td => ?_, fun now u a => ?_, fun now u a => ?_⟩
  · cases h : td.expires_at with
    | none => simp [is_token_expired, h]
    | some e => simp [is_token_expired, h]
  · simp [is_token_expired]
  · simp [is_token_expired]

/-! ### C6 -/

/-- C6 counterexample: normalizing the spec's example seeding record does
not yield `product_category = "SEED"`: `normalize_operation` discards the
extracted `productType`, and the row persisted for this operation carries
`product_category = None`. -/
theorem C6_counterexample :
    ¬ ((adaptRow "f1" (normalize_operation cParse 1000 seedingRecord
        "f1" "North" "o1" "Acme")).product_category = some "SEED") := by
  decide

/-- C6 (amended): the vendor operation-type mapping is exact, first match
wins, case-sensitive: seeding → PLANTING, harvest → HARVEST, tillage →
TILLAGE, application → FERTILIZER, anything else or absent → OTHER; the
spec's example record yields `operation_type = PLANTING`,
`crop_name = "Corn"` and `product_name = "DKC63-42"`, but no
`product_category`: the extracted `productType` is discarded and the
persisted row's `product_category` is null. -/
theorem C6_normalize_mapping (parseIso : String → Option Int) (now : Int)
    (rec : RawOp) (fid fn oid onm : String) :
    ((rec.fieldOperationType = some "seeding" →
       (normalize_operation parseIso now rec fid fn oid onm).operation_type = "PLANTING") ∧
     (rec.fieldOperationType = some "harvest" →
       (normalize_operation parseIso now rec fid fn oid onm).operation_type = "HARVEST") ∧
     (rec.fieldOperationType = some "tillage" →
       (normalize_operation parseIso now rec fid fn oid onm).operation_type = "TILLAGE") ∧
     (rec.fieldOperationType = some "application" →
       (normalize_operation parseIso now rec fid fn oid onm).operation_type = "FERTILIZER") ∧
     (∀ s, rec.fieldOperationType = some s →
       s ≠ "seeding" → s ≠ "harvest" → s ≠ "tillage" → s ≠ "application" →
       (normalize_operation parseIso now rec fid fn oid onm).operation_type = "OTHER") ∧
     (rec.fieldOperationType = none →
       (normalize_operation parseIso now rec fid fn oid onm).operation_type = "OTHER")) ∧
    ((normalize_operation parseIso now seedingRecord fid fn oid onm).operation_type
        = "PLANTING" ∧
     (normalize_operation parseIso now seedingRecord fid fn oid onm).crop_name
        = some "Corn" ∧
     (normalize_operation parseIso now seedingRecord fid fn oid onm).product_name
        = some "DKC63-42" ∧
     (adaptRow fid (normalize_operation parseIso now seedingRecord fid fn oid onm)).product_category
        = none) := by
  refine ⟨⟨fun h => ?_, fun h => ?_, fun h => ?_, fun h => ?_,
           fun s h h1 h2 h3 h4 => ?_, fun h => ?_⟩, ?_, ?_, ?_, ?_⟩
  · simp [normalize_operation, h]
  · simp [normalize_operation, h]
  · simp [normalize_operation, h]
  · simp [normalize_operation, h]
  · simp [normalize_operation, h, h1, h2, h3, h4]
  · simp [normalize_operation, h]
  · simp [normalize_operation, seedingRecord]
  · simp [normalize_operation, seedingRecord]
  · simp [normalize_operation, seedingRecord]
  · simp [adaptRow]

/-- Witness for C6: the amended theorem applied to the example record. -/
theorem C6_witness :
    (normalize_operation cParse 1000 seedingRecord "f1" "North" "o1" "Acme").operation_type
      = "PLANTING" :=
  (C6_normalize_mapping cParse 1000 seedingRecord "f1" "North" "o1" "Acme").1.1 rfl

/-! ### C7 -/

/-- C7 counterexample: a record whose timestamps live only under the
secondary keys (`startTime`/`endTime`) — with `startDate`/`endDate` absent —
gets the current time (999), not the parse of the secondary field (42):
`normalize_operation` has no third fallback source. -/
theorem C7_counterexample :
    (normalize_operation cParse 999 secondaryKeyRecord "f1" "f1" "o1" "o1").date = 999 ∧
    secondaryKeyRecord.startDate = none ∧
    secondaryKeyRecord.endDate = none ∧
    secondaryKeyRecord.startTime = some "2020-04-22T02:00:41.212Z" ∧
    cParse "2020-04-22T02:00:41.212+00:00" = some 42 ∧
    (999 : Int) ≠ 42 := by
  refine ⟨?_, rfl, rfl, rfl, rfl, by decide⟩
  simp [normalize_operation, secondaryKeyRecord, pyOrStr, truthyStr]

/-! ### C10 -/

/-- The per-organization scan of `check_connections_needed` equals a single
scan over all links in organization order. -/
theorem firstConnectionsLink_eq_flat (orgs : List Org) :
    firstConnectionsLink orgs =
      ((orgs.map (fun o => o.links)).flatten).find?
        (fun link => link.rel == some "connections") := by
  induction orgs with
  | nil => rfl
  | cons o rest ih =>
      rw [firstConnectionsLink]
      cases h : o.links.find? (fun link => link.rel == some "connections") with
      | none => simp [List.find?_append, h, ih]
      | some l => simp [List.find?_append, h]

/-- C10: `check_connections_needed` is not read-only — with a successful
fetch it performs exactly the organization-persistence side effects of
`get_organizations` (one `save_organization` per fetched organization),
then returns the `uri` of the first link with `rel = "connections"` in
organization iteration order (none if no such link exists). -/
theorem C10_check_connections_effects (env : Env) (user_id : String)
    (orgs : List Org) (h : env.fetchOrganizations user_id = .ok orgs) :
    check_connections_needed env user_id =
      (.ok ((((orgs.map (fun o => o.links)).flatten).find?
          (fun link => link.rel == some "connections")).bind (fun l => l.uri)),
       orgs.map (Eff.saveOrganization user_id)) ∧
    (check_connections_needed env user_id).2 = (get_organizations env user_id).2 := by
  constructor
  · simp [check_connections_needed, get_organizations, h, firstConnectionsLink_eq_flat]
  · simp [check_connections_needed, get_organizations, h]

/-- Witness for C10: a concrete environment where the second organization
carries the connections link. -/
theorem C10_witness :
    check_connections_needed (constEnv [fixOrg, connOrg] [] []) "farmer1" =
      (.ok (((([fixOrg, connOrg].map (fun o => o.links)).flatten).find?
          (fun link => link.rel == some "connections")).bind (fun l => l.uri)),
       [fixOrg, connOrg].map (Eff.saveOrganization "farmer1")) :=
  (C10_check_connections_effects (constEnv [fixOrg, connOrg] [] []) "farmer1"
    [fixOrg, connOrg] rfl).1

/-! ### C3 -/

/-- C3: `get_valid_token` returns none when no credential is stored; when
the stored credential is expired and a (truthy) refresh token exists it
refreshes, persists the refreshed credential and returns the new access
token; a refresh failure degrades to none without propagating; expired with
no refresh token gives none; otherwise the stored access token is
returned without any write. -/
theorem C3_get_valid_token (env : AuthEnv) (now : Int) (db : DB) (user_id : String) :
    (db_get_token db user_id = none →
       get_valid_token env now db user_id = (none, [])) ∧
    (∀ td, db_get_token db user_id = some td →
      ((is_token_expired now td = true →
          ((∀ rt, td.refresh_token = some rt → rt ≠ "" →
              ((∀ nt, refresh_access_token env now rt = .ok nt →
                  get_valid_token env now db user_id =
                    (some nt.access_token, [Eff.saveToken user_id nt])) ∧
               (∀ e, refresh_access_token env now rt = .error e →
                  get_valid_token env now db user_id = (none, [])))) ∧
           (td.refresh_token = none →
              get_valid_token env now db user_id = (none, [])))) ∧
       (is_token_expired now td = false →
          get_valid_token env now db user_id = (some td.access_token, [])))) := by
  refine ⟨fun h => ?_, fun td h => ⟨fun hexp => ⟨fun rt hrt hne => ⟨?_, ?_⟩, fun hnone => ?_⟩,
    fun hexp => ?_⟩⟩
  · simp [get_valid_token, h]
  · intro nt hok
    simp [get_valid_token, h, hexp, hrt, hok, truthyStr, hne]
  · intro e herr
    simp [get_valid_token, h, hexp, hrt, herr, truthyStr, hne]
  · simp [get_valid_token, h, hexp, truthyStr, hnone]
  · simp [get_valid_token, h, hexp]

/-- Witness for C3: no stored credential gives `(none, [])`. -/
theorem C3_witness :
    get_valid_token { refreshResponse := fun _ => .error "boom" } 0 emptyDB "farmer1"
      = (none, []) :=
  (C3_get_valid_token { refreshResponse := fun _ => .error "boom" } 0 emptyDB "farmer1").1 rfl

/-! ### C5 -/

/-- C5: given a prior `SyncState` with a recorded sync time and
`last_sync_end_date = T`, an incremental call resolves its window with
start exactly `T` and end `now` unless an explicit end-date override is
supplied, and the endpoint's successful response reports that window. -/
theorem C5_incremental_continuation (env : Env) (c : Clock)
    (parseIso : String → Option Int) (db : DB) (fa o f T : String)
    (st : SyncRow) (lb : Nat) (ed : Option String)
    (h1 : db_get_sync_state db fa (some o) (some f) = some st)
    (h2 : truthyStr st.last_synced_at = true)
    (h3 : st.last_sync_end_date = some T) :
    resolveWindow db c fa o f "incremental" lb ed =
      some (some T, ed.getD (nowZ c), "incremental") ∧
    (∀ ops, env.fetchFieldOperations fa o f (some T) (some (ed.getD (nowZ c))) = .ok ops →
       ∃ norm, (get_field_operations_with_sync env c parseIso db f o fa
           "incremental" lb ed).1 =
         SyncResponse.ok norm "incremental" (some T) (ed.getD (nowZ c))) := by
  have hw : resolveWindow db c fa o f "incremental" lb ed =
      some (some T, ed.getD (nowZ c), "incremental") := by
    cases ed <;> simp [resolveWindow, h1, h2, h3]
  refine ⟨hw, fun ops hops => ?_⟩
  refine ⟨ops.map fun raw_op => normalize_operation parseIso c.now raw_op f
      (lookupFieldName env fa o f false) o o, ?_⟩
  simp [get_field_operations_with_sync, hw, get_field_operations, hops]

/-- Witness for C5: the warm database resolves the incremental window at
exactly the stored end date. -/
theorem C5_witness :
    resolveWindow warmDB cClock "farmer1" "org1" "fieldX" "incremental" 5 none =
      some (some "2024-01-01T00:00:00", nowZ cClock, "incremental") :=
  (C5_incremental_continuation (constEnv [] [] []) cClock cParse warmDB
    "farmer1" "org1" "fieldX" "2024-01-01T00:00:00"
    { farmer_id := "farmer1", org_id := "org1", field_id := "fieldX",
      field_name := some "North",
      last_synced_at := some "2024-06-01T12:00:00",
      last_sync_mode := some "full_history",
      last_sync_start_date := some "2019-01-01T00:00:00",
      last_sync_end_date := some "2024-01-01T00:00:00" }
    5 none rfl (by decide) rfl).1

/-- C7 (amended): `normalize_operation` chooses the date preferring
`startDate`, else `endDate` — there is no secondary-key fallback — and an
unparseable (or absent, or non-truthy) choice is replaced by the current
time rather than failing the record; normalization maps batches
one-to-one, and the sync endpoint's successful response carries exactly one
normalized record per fetched raw record. -/
theorem C7_date_choice (parseIso : String → Option Int) (now : Int) (rec : RawOp)
    (fid fn oid onm : String) :
    ((normalize_operation parseIso now rec fid fn oid onm).date =
        chosenDateSpec parseIso now rec) ∧
    (∀ recs : List RawOp,
       (recs.map (fun r => normalize_operation parseIso now r fid fn oid onm)).length
         = recs.length) ∧
    (∀ (env : Env) (c : Clock) (db : DB) (f o fa mode : String) (lb : Nat)
       (ed sd : Option String) (ed' m : String) (ops : List RawOp),
       resolveWindow db c fa o f mode lb ed = some (sd, ed', m) →
       env.fetchFieldOperations fa o f sd (some ed') = .ok ops →
       ∃ norm, (get_field_operations_with_sync env c parseIso db f o fa mode lb ed).1 =
           SyncResponse.ok norm m sd ed' ∧ norm.length = ops.length) := by
  refine ⟨?_, fun recs => by simp, ?_⟩
  · show (if truthyStr (pyOrStr rec.startDate rec.endDate) then
        match pyOrStr rec.startDate rec.endDate with
        | some s => (parseIso (s.replace "Z" "+00:00")).getD now
        | none => now
      else now) = chosenDateSpec parseIso now rec
    unfold chosenDateSpec pyOrStr
    by_cases h1 : truthyStr rec.startDate
    · cases hs : rec.startDate with
      | none => simp [truthyStr, hs] at h1
      | some s =>
          rw [hs] at h1
          simp [h1, hs, parseOrNow]
    · simp only [h1, Bool.false_eq_true, if_false]
      by_cases h2 : truthyStr rec.endDate
      · cases he : rec.endDate with
        | none => simp [truthyStr, he] at h2
        | some s =>
            rw [he] at h2
            simp [h2, he, parseOrNow]
      · simp [h2]
  · intro env c db f o fa mode lb ed sd ed' m ops hw hops
    refine ⟨ops.map fun raw_op => normalize_operation parseIso c.now raw_op f
        (lookupFieldName env fa o f false) o o, ?_, by simp⟩
    simp [get_field_operations_with_sync, hw, get_field_operations, hops]

/-- Witness for C7: the five-record batch with an unparseable third date
still yields five normalized records through the sync endpoint. -/
theorem C7_witness :
    ∃ norm, (get_field_operations_with_sync env5 cClock parse5 emptyDB
        "fieldX" "org1" "farmer1" "full_history" 5 none).1 =
      SyncResponse.ok norm "full_history" (some (fullHistoryStart cClock 5)) (nowZ cClock) ∧
      norm.length = batch5.length :=
  (C7_date_choice parse5 1000 badDateOp "x" "x" "x" "x").2.2 env5 cClock emptyDB
    "fieldX" "org1" "farmer1" "full_history" 5 none
    (some (fullHistoryStart cClock 5)) (nowZ cClock) "full_history" batch5
    (by decide) rfl

/-! ### C1 -/

/-- C1 counterexample: a successful incremental run of
`get_field_operations_with_sync` writes the field's `SyncState` while
persisting no raw and no normalized operations at all, so the trace
violates the claimed raw-then-normalized-then-`SyncState` ordering. -/
theorem C1_counterexample :
    watermarkOrdered (get_field_operations_with_sync (constEnv [] [] [])
        cClock cParse warmDB "fieldX" "org1" "farmer1" "incremental" 5 none).2 = false ∧
    ((get_field_operations_with_sync (constEnv [] [] [])
        cClock cParse warmDB "fieldX" "org1" "farmer1" "incremental" 5 none).2.any
      isSaveSyncState = true) ∧
    ((get_field_operations_with_sync (constEnv [] [] [])
        cClock cParse warmDB "fieldX" "org1" "farmer1" "incremental" 5 none).2.any
      isInsertNormalized = false) ∧
    ((get_field_operations_with_sync (constEnv [] [] [])
        cClock cParse warmDB "fieldX" "org1" "farmer1" "incremental" 5 none).2.any
      isUpsertRawOp = false) := by
  decide

/-- `rpnGo` is monotone in the seen-key set. -/
theorem rpnGo_mono : ∀ (tr : List Eff) (s1 s2 : List (String × String)),
    (∀ x, x ∈ s1 → x ∈ s2) → rpnGo tr s1 = true → rpnGo tr s2 = true := by
  intro tr
  induction tr with
  | nil => intro s1 s2 _ _; rfl
  | cons e rest ih =>
      intro s1 s2 hsub h
      cases e
      case upsertRawOperation o f op =>
        simp only [rpnGo] at h ⊢
        refine ih _ _ ?_ h
        intro x hx
        rcases List.mem_cons.mp hx with hx | hx
        · exact hx ▸ List.mem_cons_self _ _
        · exact List.mem_cons_of_mem _ (hsub x hx)
      case insertNormalizedOperations o f rows =>
        simp only [rpnGo, Bool.and_eq_true] at h ⊢
        exact ⟨List.elem_iff.mpr (hsub _ (List.elem_iff.mp h.1)), ih _ _ hsub h.2⟩
      all_goals simp only [rpnGo] at h ⊢
      all_goals exact ih _ _ hsub h

/-- `rpnGo` over a concatenation of self-contained segments. -/
theorem rpnGo_append : ∀ (a b : List Eff) (s : List (String × String)),
    rpnGo a s = true → rpnGo b [] = true → rpnGo (a ++ b) s = true := by
  intro a
  induction a with
  | nil =>
      intro b s _ hb
      exact rpnGo_mono b [] s (fun x hx => absurd hx (List.not_mem_nil x)) hb
  | cons e rest ih =>
      intro b s ha hb
      cases e
      case upsertRawOperation o f op =>
        simp only [List.cons_append, rpnGo] at ha ⊢
        exact ih b _ ha hb
      case insertNormalizedOperations o f rows =>
        simp only [List.cons_append, rpnGo, Bool.and_eq_true] at ha ⊢
        exact ⟨ha.1, ih b s ha.2 hb⟩
      all_goals simp only [List.cons_append, rpnGo] at ha ⊢
      all_goals exact ih b s ha hb

/-- `rpnGo` holds on a flattened list of independently valid segments. -/
theorem rpnGo_flatten : ∀ (ls : List (List Eff)),
    (∀ l ∈ ls, rpnGo l [] = true) → rpnGo ls.flatten [] = true := by
  intro ls
  induction ls with
  | nil => intro _; rfl
  | cons l rest ih =>
      intro h
      rw [List.flatten_cons]
      exact rpnGo_append l rest.flatten []
        (h l (List.mem_cons_self _ _))
        (ih (fun x hx => h x (List.mem_cons_of_mem _ hx)))

/-- After one raw upsert for `(o, f)`, the remaining raw upserts of the
batch followed by the batch's normalized insert satisfy `rpnGo`. -/
theorem rpnGo_rawmap_insert (o f : String) (rows : List DbOpRow) :
    ∀ (ops : List RawOp) (seen : List (String × String)),
      seen.contains (o, f) = true →
      rpnGo (ops.map (Eff.upsertRawOperation o f) ++
        [Eff.insertNormalizedOperations o f rows]) seen = true := by
  intro ops
  induction ops with
  | nil =>
      intro seen hc
      simp only [List.map_nil, List.nil_append, rpnGo, Bool.and_eq_true]
      exact ⟨hc, trivial⟩
  | cons op rest ih =>
      intro seen hc
      simp only [List.map_cons, List.cons_append, rpnGo]
      refine ih _ ?_
      exact List.elem_iff.mpr (List.mem_cons_self _ _)

/-- The per-field body of the farmer sweep persists raw operations before
the field's normalized insert. -/
theorem syncFieldRun_rpn (env : Env) (c : Clock) (p : String → Option Int)
    (fa : String) (sd ed : Option String) (org : Org) (oid : String)
    (field : FieldData) (fid : String) :
    rpnGo (syncFieldRun env c p fa sd ed org oid field fid).2 [] = true := by
  unfold syncFieldRun
  cases get_field_operations env fa oid fid sd ed with
  | error e => rfl
  | ok raw_ops =>
      cases raw_ops with
      | nil => rfl
      | cons r rs =>
          simp only [List.map_cons, List.cons_append, rpnGo]
          exact rpnGo_rawmap_insert oid fid _ rs _
            (List.elem_iff.mpr (List.mem_cons_self _ _))

/-- Per-field wrapper preserves the ordering. -/
theorem syncFieldFull_rpn (env : Env) (c : Clock) (p : String → Option Int)
    (fa : String) (sd ed : Option String) (org : Org) (oid : String)
    (field : FieldData) :
    rpnGo (syncFieldFull env c p fa sd ed org oid field).2.2 [] = true := by
  unfold syncFieldFull
  cases truthyOpt field.id with
  | none => rfl
  | some fid =>
      simp only [rpnGo]
      exact syncFieldRun_rpn env c p fa sd ed org oid field fid

/-- Per-organization segment preserves the ordering. -/
theorem syncOrgRun_rpn (env : Env) (c : Clock) (p : String → Option Int)
    (fa : String) (sd ed : Option String) (org : Org) :
    rpnGo (syncOrgRun env c p fa sd ed org).2.2.2 [] = true := by
  unfold syncOrgRun
  cases truthyOpt org.id with
  | none => rfl
  | some oid =>
      dsimp only
      cases get_fields env fa oid true with
      | error e => rfl
      | ok fields =>
          dsimp only
          simp only [rpnGo]
          apply rpnGo_flatten
          intro l hl
          simp only [List.map_map, List.mem_map, Function.comp] at hl
          obtain ⟨fld, _, hfld⟩ := hl
          exact hfld ▸ syncFieldFull_rpn env c p fa sd ed org oid fld

/-- The organization-persistence prefix contains no raw/normalized writes. -/
theorem rpnGo_saveOrgs (uid : String) : ∀ (orgs : List Org) (s : List (String × String)),
    rpnGo (orgs.map (Eff.saveOrganization uid)) s = true := by
  intro orgs
  induction orgs with
  | nil => intro s; rfl
  | cons o rest ih =>
      intro s
      simp only [List.map_cons, rpnGo]
      exact ih s

/-- No `field_sync_state` write in the per-field body of the sweep. -/
theorem syncFieldRun_noSync (env : Env) (c : Clock) (p : String → Option Int)
    (fa : String) (sd ed : Option String) (org : Org) (oid : String)
    (field : FieldData) (fid : String) :
    noSyncStateWrite (syncFieldRun env c p fa sd ed org oid field fid).2 = true := by
  unfold syncFieldRun noSyncStateWrite
  cases get_field_operations env fa oid fid sd ed with
  | error e => rfl
  | ok raw_ops =>
      cases raw_ops with
      | nil => rfl
      | cons r rs =>
          simp [List.all_append, List.all_map, isSaveSyncState, Function.comp]

/-- No `field_sync_state` write per field. -/
theorem syncFieldFull_noSync (env : Env) (c : Clock) (p : String → Option Int)
    (fa : String) (sd ed : Option String) (org : Org) (oid : String)
    (field : FieldData) :
    noSyncStateWrite (syncFieldFull env c p fa sd ed org oid field).2.2 = true := by
  unfold syncFieldFull
  cases truthyOpt field.id with
  | none => rfl
  | some fid =>
      dsimp only
      have h := syncFieldRun_noSync env c p fa sd ed org oid field fid
      unfold noSyncStateWrite at h ⊢
      simp only [List.all_cons, Bool.and_eq_true]
      exact ⟨rfl, h⟩

/-- No `field_sync_state` write per organization. -/
theorem syncOrgRun_noSync (env : Env) (c : Clock) (p : String → Option Int)
    (fa : String) (sd ed : Option String) (org : Org) :
    noSyncStateWrite (syncOrgRun env c p fa sd ed org).2.2.2 = true := by
  unfold syncOrgRun
  cases truthyOpt org.id with
  | none => rfl
  | some oid =>
      dsimp only
      cases get_fields env fa oid true with
      | error e => rfl
      | ok fields =>
          dsimp only
          unfold noSyncStateWrite
          simp only [List.all_cons, Bool.and_eq_true]
          refine ⟨rfl, ?_⟩
          rw [List.all_flatten]
          apply List.all_eq_true.mpr
          intro l hl
          simp only [List.map_map, List.mem_map, Function.comp] at hl
          obtain ⟨fld, _, hfld⟩ := hl
          have hn := syncFieldFull_noSync env c p fa sd ed org oid fld
          unfold noSyncStateWrite at hn
          exact hfld ▸ hn

/-- C1 (amended): in `sync_farmer_data`, raw-operation persistence for a
field precedes that field's normalized-operation persistence and no
`SyncState` row is ever written; in `get_field_operations_with_sync`, the
`SyncState` write happens only on a successful run (never on the cold-start
fallback or a fetch failure), but it is the *only* write the endpoint makes —
no raw or normalized persistence precedes it. -/
theorem C1_ordering (env : Env) (c : Clock) (p : String → Option Int)
    (fa : String) (ofil : Option String) (sd ed : Option String)
    (db : DB) (f o mode : String) (lb : Nat) (ed2 : Option String) :
    (rawPrecedesNormalized (sync_farmer_data env c p fa ofil sd ed).2 = true ∧
     noSyncStateWrite (sync_farmer_data env c p fa ofil sd ed).2 = true) ∧
    ((get_field_operations_with_sync env c p db f o fa mode lb ed2).2 = [] ∨
     ∃ norm m sd' ed',
       (get_field_operations_with_sync env c p db f o fa mode lb ed2).1 =
         SyncResponse.ok norm m sd' ed' ∧
       (get_field_operations_with_sync env c p db f o fa mode lb ed2).2 =
         [Eff.saveSyncState fa (some o) (some f)
           (some (lookupFieldName env fa o f false)) m sd' ed']) := by
  refine ⟨⟨?_, ?_⟩, ?_⟩
  · unfold sync_farmer_data get_organizations rawPrecedesNormalized
    cases env.fetchOrganizations fa with
    | error e => rfl
    | ok orgs0 =>
        dsimp only
        apply rpnGo_append
        · exact rpnGo_saveOrgs fa _ []
        · apply rpnGo_flatten
          intro l hl
          simp only [List.map_map, List.mem_map, Function.comp] at hl
          obtain ⟨org, _, horg⟩ := hl
          exact horg ▸ syncOrgRun_rpn env c p fa sd ed org
  · unfold sync_farmer_data get_organizations
    cases env.fetchOrganizations fa with
    | error e => rfl
    | ok orgs0 =>
        dsimp only
        unfold noSyncStateWrite
        rw [List.all_append]
        simp only [Bool.and_eq_true]
        constructor
        · apply List.all_eq_true.mpr
          intro e he
          obtain ⟨org, _, horg⟩ := List.mem_map.mp he
          rw [← horg]
          rfl
        · rw [List.all_flatten]
          apply List.all_eq_true.mpr
          intro l hl
          simp only [List.map_map, List.mem_map, Function.comp] at hl
          obtain ⟨org, _, horg⟩ := hl
          have hn := syncOrgRun_noSync env c p fa sd ed org
          unfold noSyncStateWrite at hn
          exact horg ▸ hn
  · unfold get_field_operations_with_sync
    cases resolveWindow db c fa o f mode lb ed2 with
    | none => exact Or.inl rfl
    | some w =>
        obtain ⟨sd', ed', m⟩ := w
        dsimp only
        cases get_field_operations env fa o f sd' (some ed') with
        | error e => exact Or.inl rfl
        | ok raw_operations =>
            dsimp only
            exact Or.inr ⟨_, m, sd', ed', rfl, rfl⟩

/-! ### C2 -/

/-- `truthyOpt` only returns the stored value. -/
theorem truthyOpt_eq_some {o : Option String} {x : String}
    (h : truthyOpt o = some x) : o = some x := by
  unfold truthyOpt at h
  by_cases ht : truthyStr o = true
  · simpa [ht] using h
  · simp [ht] at h

/-- C2: a failure fetching one field's operations does not abort the
farmer sweep — the run still returns the aggregate report and every other
field's fetch/normalize/persist step is unchanged; a failure listing one
organization's fields skips only that organization's fields (its row is
still upserted) while every other organization's processing is unchanged. -/
theorem C2_failure_isolation (env : Env) (c : Clock) (p : String → Option Int)
    (fa : String) (sd ed : Option String) (oidB fidB oidX : String)
    (orgs : List Org) (h : env.fetchOrganizations fa = .ok orgs) :
    (∃ r : FarmerSyncResult,
       (sync_farmer_data (failFieldEnv env fa oidB fidB) c p fa none sd ed).1
         = Except.ok r) ∧
    (∀ (org : Org) (oid : String) (field : FieldData) (fid : String),
       ¬ (oid = oidB ∧ fid = fidB) →
       syncFieldRun (failFieldEnv env fa oidB fidB) c p fa sd ed org oid field fid =
         syncFieldRun env c p fa sd ed org oid field fid) ∧
    (∀ org : Org, org.id = some oidX → oidX ≠ "" →
       syncOrgRun (failOrgFieldsEnv env fa oidX) c p fa sd ed org =
         (1, 0, 0, [Eff.upsertOrganization fa org])) ∧
    (∀ org : Org, org.id ≠ some oidX →
       syncOrgRun (failOrgFieldsEnv env fa oidX) c p fa sd ed org =
         syncOrgRun env c p fa sd ed org) := by
  refine ⟨?_, ?_, ?_, ?_⟩
  · have henv : (failFieldEnv env fa oidB fidB).fetchOrganizations
        = env.fetchOrganizations := rfl
    unfold sync_farmer_data get_organizations
    rw [henv, h]
    dsimp only
    exact ⟨_, rfl⟩
  · intro org oid field fid hne
    have hcond : ((fa == fa && oid == oidB) && fid == fidB) = false := by
      by_cases h1 : oid = oidB
      · by_cases h2 : fid = fidB
        · exact absurd ⟨h1, h2⟩ hne
        · simp [h2]
      · simp [h1]
    unfold syncFieldRun get_field_operations failFieldEnv
    dsimp only
    rw [hcond]
    rfl
  · intro org hid hne
    have htr : truthyOpt org.id = some oidX := by
      simp [truthyOpt, truthyStr, hid, hne]
    unfold syncOrgRun
    rw [htr]
    dsimp only
    have hgf : get_fields (failOrgFieldsEnv env fa oidX) fa oidX true
        = .error "RemoteRequestFailed" := by
      unfold get_fields failOrgFieldsEnv
      dsimp only
      simp
    rw [hgf]
  · intro org hne
    unfold syncOrgRun
    cases hopt : truthyOpt org.id with
    | none => rfl
    | some oid =>
        have hoid : oid ≠ oidX := by
          intro heq
          exact hne (by rw [truthyOpt_eq_some hopt, heq])
        dsimp only
        have hgf : get_fields (failOrgFieldsEnv env fa oidX) fa oid true
            = get_fields env fa oid true := by
          unfold get_fields failOrgFieldsEnv
          dsimp only
          simp [hoid]
        rw [hgf]
        rfl

/-- Witness for C2: the concrete three-field organization with field B's
fetch failing still returns the aggregate report. -/
theorem C2_witness :
    ∃ r, (sync_farmer_data (failFieldEnv c2Env "farmer1" "org1" "fieldB")
        cClock cParse "farmer1" none none none).1 = Except.ok r :=
  (C2_failure_isolation c2Env cClock cParse "farmer1" none none
    "org1" "fieldB" "orgZ" [fixOrg] rfl).1

/-! ### C4 -/

/-- C4 counterexample: an incremental-mode `get_farmer_snapshot` for a
field with no prior `SyncState` is an incremental-mode sync request, yet it
returns a plain snapshot (no fallback indicator of any kind) and *does*
write a `SyncState` row for that field. -/
theorem C4_counterexample :
    ((get_farmer_snapshot (constEnv [fixOrg] [fixField] []) cClock cParse emptyDB
        "farmer1" "incremental" 5).2.any isSaveSyncState = true) ∧
    ((db_get_sync_state (applyEffs "2025-06-01T00:00:00" emptyDB
        (get_farmer_snapshot (constEnv [fixOrg] [fixField] []) cClock cParse emptyDB
          "farmer1" "incremental" 5).2)
      "farmer1" (some "org1") (some "fieldX")).isSome = true) ∧
    ((get_farmer_snapshot (constEnv [fixOrg] [fixField] []) cClock cParse emptyDB
        "farmer1" "incremental" 5).1 =
      SnapResponse.snapshot "farmer1" "incremental" 5 [(some "fieldX", [])]) ∧
    (db_get_sync_state emptyDB "farmer1" (some "org1") (some "fieldX") = none) := by
  decide

/-- C4 (amended): only the per-field sync endpoint implements the
cold-start contract — with no prior `SyncState` (or one without a recorded
sync time) an incremental `get_field_operations_with_sync` returns the
distinct 202 fallback and performs no write at all; the snapshot endpoint's
per-field step instead silently substitutes the full-history window and,
after a successful fetch, writes a `SyncState` row. -/
theorem C4_cold_start :
    (∀ (env : Env) (c : Clock) (p : String → Option Int) (db : DB)
       (f o fa : String) (lb : Nat) (ed : Option String),
       db_get_sync_state db fa (some o) (some f) = none →
       get_field_operations_with_sync env c p db f o fa "incremental" lb ed
         = (.fallback, [])) ∧
    (∀ (env : Env) (c : Clock) (p : String → Option Int) (db : DB)
       (f o fa : String) (lb : Nat) (ed : Option String) (st : SyncRow),
       db_get_sync_state db fa (some o) (some f) = some st →
       truthyStr st.last_synced_at = false →
       get_field_operations_with_sync env c p db f o fa "incremental" lb ed
         = (.fallback, [])) ∧
    (∀ (env : Env) (c : Clock) (p : String → Option Int) (db : DB)
       (fa : String) (lb : Nat) (org : Org) (field : FieldData) (ops : List RawOp),
       db_get_sync_state db fa org.id field.id = none →
       env.fetchFieldOperations fa (pyStr org.id) (pyStr field.id)
           (some (fullHistoryStart c lb)) (some (nowZ c)) = .ok ops →
       snapshotFieldRun env c p db fa "incremental" lb org org.id field =
         ((field.id, ops.map (fun raw_op => normalize_operation p c.now raw_op
             (pyStr field.id) (pyStr (dictGetD field.name field.id)) (pyStr org.id)
             (pyStr (dictGetD org.name org.id)))),
          [Eff.saveSyncState fa org.id field.id (dictGetD field.name field.id)
            "incremental" (some (fullHistoryStart c lb)) (nowZ c)])) := by
  refine ⟨?_, ?_, ?_⟩
  · intro env c p db f o fa lb ed hnone
    simp [get_field_operations_with_sync, resolveWindow, hnone]
  · intro env c p db f o fa lb ed st hst hts
    simp [get_field_operations_with_sync, resolveWindow, hst, hts]
  · intro env c p db fa lb org field ops hnone hfetch
    simp [snapshotFieldRun, get_field_operations, hnone, hfetch]

/-- Witness for C4: the empty database triggers the 202 fallback with no
writes on the sync endpoint. -/
theorem C4_witness :
    get_field_operations_with_sync (constEnv [] [] []) cClock cParse emptyDB
      "fieldX" "org1" "farmer1" "incremental" 5 none = (.fallback, []) :=
  C4_cold_start.1 (constEnv [] [] []) cClock cParse emptyDB
    "fieldX" "org1" "farmer1" 5 none rfl

/-! ### C8 -/

/-- C8 counterexample: syncing a field whose single operation has no vendor
`id` leaves a database where the normalized row's `operation_id` is the
synthesized composite while the raw row's `operation_id` is NULL — no raw
row with the normalized row's id exists. -/
theorem C8_counterexample :
    traceable (applyEffs "2025-06-01T00:00:00" emptyDB
      (sync_farmer_data (constEnv [fixOrg] [fixField] [noIdOp])
        cClock cParse "farmer1" none none none).2) = false ∧
    (applyEffs "2025-06-01T00:00:00" emptyDB
      (sync_farmer_data (constEnv [fixOrg] [fixField] [noIdOp])
        cClock cParse "farmer1" none none none).2).operations_raw.map
        (fun r => r.operation_id) = [none] ∧
    (applyEffs "2025-06-01T00:00:00" emptyDB
      (sync_farmer_data (constEnv [fixOrg] [fixField] [noIdOp])
        cClock cParse "farmer1" none none none).2).operations_normalized.map
        (fun n => n.operation_id) = ["fieldX-1000"] := by
  decide

/-- `goodTrace` is monotone in the available-id set. -/
theorem goodTrace_mono : ∀ (tr : List Eff) (ids1 ids2 : List String),
    (∀ k, k ∈ ids1 → k ∈ ids2) →
    goodTrace ids1 tr = true → goodTrace ids2 tr = true := by
  intro tr
  induction tr with
  | nil => intro _ _ _ _; rfl
  | cons e rest ih =>
      intro ids1 ids2 hsub h
      cases e
      case upsertRawOperation o f op =>
        simp only [goodTrace] at h ⊢
        cases hid : op.id with
        | none =>
            rw [hid] at h
            dsimp only at h ⊢
            exact ih _ _ hsub h
        | some k =>
            rw [hid] at h
            dsimp only at h ⊢
            refine ih _ _ ?_ h
            intro x hx
            rcases List.mem_cons.mp hx with hx | hx
            · exact hx ▸ List.mem_cons_self _ _
            · exact List.mem_cons_of_mem _ (hsub x hx)
      case insertNormalizedOperations o f rows =>
        simp only [goodTrace, Bool.and_eq_true] at h ⊢
        refine ⟨?_, ih _ _ hsub h.2⟩
        apply List.all_eq_true.mpr
        intro d hd
        have hc := List.all_eq_true.mp h.1 d hd
        exact List.elem_iff.mpr (hsub _ (List.elem_iff.mp hc))
      all_goals simp only [goodTrace] at h ⊢
      all_goals exact ih _ _ hsub h

/-- `goodTrace` over a concatenation of self-contained segments. -/
theorem goodTrace_append : ∀ (a b : List Eff) (ids : List String),
    goodTrace ids a = true → goodTrace [] b = true →
    goodTrace ids (a ++ b) = true := by
  intro a
  induction a with
  | nil =>
      intro b ids _ hb
      exact goodTrace_mono b [] ids (fun k hk => absurd hk (List.not_mem_nil k)) hb
  | cons e rest ih =>
      intro b ids ha hb
      cases e
      case upsertRawOperation o f op =>
        simp only [List.cons_append, goodTrace] at ha ⊢
        exact ih b _ ha hb
      case insertNormalizedOperations o f rows =>
        simp only [List.cons_append, goodTrace, Bool.and_eq_true] at ha ⊢
        exact ⟨ha.1, ih b ids ha.2 hb⟩
      all_goals simp only [List.cons_append, goodTrace] at ha ⊢
      all_goals exact ih b ids ha hb

/-- `goodTrace` holds on a flattened list of self-contained segments. -/
theorem goodTrace_flatten : ∀ (ls : List (List Eff)),
    (∀ l ∈ ls, goodTrace [] l = true) →
    ∀ ids, goodTrace ids ls.flatten = true := by
  intro ls
  induction ls with
  | nil => intro _ ids; rfl
  | cons l rest ih =>
      intro h ids
      rw [List.flatten_cons]
      exact goodTrace_append l rest.flatten ids
        (goodTrace_mono l [] ids (fun k hk => absurd hk (List.not_mem_nil k))
          (h l (List.mem_cons_self _ _)))
        (ih (fun x hx => h x (List.mem_cons_of_mem _ hx)) [])

/-- `accKeys` keeps the ids it started with. -/
theorem accKeys_sub : ∀ (ops : List RawOp) (ids : List String) (k : String),
    k ∈ ids → k ∈ accKeys ops ids := by
  intro ops
  induction ops with
  | nil => intro ids k hk; exact hk
  | cons op rest ih =>
      intro ids k hk
      show k ∈ accKeys rest (match op.id with | some k' => k' :: ids | none => ids)
      apply ih
      cases op.id with
      | none => exact hk
      | some k' => exact List.mem_cons_of_mem _ hk

/-- `accKeys` collects every present vendor id of the batch. -/
theorem accKeys_mem_of : ∀ (ops : List RawOp) (ids : List String) (op : RawOp),
    op ∈ ops → ∀ k, op.id = some k → k ∈ accKeys ops ids := by
  intro ops
  induction ops with
  | nil => intro ids op hop; exact absurd hop (List.not_mem_nil op)
  | cons op' rest ih =>
      intro ids op hop k hk
      rcases List.mem_cons.mp hop with hop | hop
      · subst hop
        show k ∈ accKeys rest (match op.id with | some k' => k' :: ids | none => ids)
        rw [hk]
        exact accKeys_sub rest _ k (List.mem_cons_self _ _)
      · exact ih _ op hop k hk

/-- Walking the raw-upsert prefix of a field block accumulates `accKeys`. -/
theorem goodTrace_rawmap : ∀ (ops : List RawOp) (o f : String)
    (ids : List String) (rest : List Eff),
    goodTrace (accKeys ops ids) rest = true →
    goodTrace ids (ops.map (Eff.upsertRawOperation o f) ++ rest) = true := by
  intro ops
  induction ops with
  | nil => intro o f ids rest h; exact h
  | cons op t ih =>
      intro o f ids rest h
      simp only [List.map_cons, List.cons_append, goodTrace]
      exact ih o f _ rest h

/-- The id persisted for a normalized operation whose raw payload carries a
truthy vendor id is that id. -/
theorem adaptRow_id_of_truthy (fid : String) (n : NormalizedOperation)
    (raw : RawOp) (k : String) (hraw : n.raw_jdoc_data = some raw)
    (hid : raw.id = some k) (hk : k ≠ "") :
    (adaptRow fid n).operation_id = k := by
  simp [adaptRow, hraw, hid, pyOrStr, truthyStr, hk]

/-- A field block of the farmer sweep only inserts available raw ids, as
long as every fetched operation has a truthy vendor id. -/
theorem syncFieldRun_goodTrace (env : Env) (c : Clock) (p : String → Option Int)
    (fa : String) (sd ed : Option String) (org : Org) (oid : String)
    (field : FieldData) (fid : String)
    (hids : ∀ u o f sd' ed' ops, env.fetchFieldOperations u o f sd' ed' = .ok ops →
       ∀ op ∈ ops, truthyStr op.id = true) :
    ∀ ids, goodTrace ids (syncFieldRun env c p fa sd ed org oid field fid).2 = true := by
  intro ids
  unfold syncFieldRun
  cases hf : get_field_operations env fa oid fid sd ed with
  | error e => rfl
  | ok raw_ops =>
      dsimp only
      have hops := hids fa oid fid sd ed raw_ops hf
      cases raw_ops with
      | nil => rfl
      | cons r rs =>
          show goodTrace ids (((r :: rs).map (Eff.upsertRawOperation oid fid)) ++
            [Eff.insertNormalizedOperations oid fid
              (((r :: rs).map (fun raw_op => normalize_operation p c.now raw_op fid
                  (field.name.getD fid) oid (org.name.getD oid))).map (adaptRow fid))]) = true
          apply goodTrace_rawmap
          simp only [goodTrace, Bool.and_eq_true]
          refine ⟨?_, trivial⟩
          apply List.all_eq_true.mpr
          intro d hd
          simp only [List.map_map, List.mem_map, Function.comp] at hd
          obtain ⟨op, hop, hopd⟩ := hd
          have htruthy := hops op hop
          cases hid : op.id with
          | none =>
              rw [hid] at htruthy
              simp [truthyStr] at htruthy
          | some k =>
              rw [hid] at htruthy
              have hk : k ≠ "" := by simpa [truthyStr] using htruthy
              have hdid : d.operation_id = k := by
                rw [← hopd]
                exact adaptRow_id_of_truthy fid _ op k rfl hid hk
              rw [hdid]
              exact List.elem_iff.mpr (accKeys_mem_of (r :: rs) ids op hop k hid)

/-- Per-field wrapper: still good. -/
theorem syncFieldFull_goodTrace (env : Env) (c : Clock) (p : String → Option Int)
    (fa : String) (sd ed : Option String) (org : Org) (oid : String)
    (field : FieldData)
    (hids : ∀ u o f sd' ed' ops, env.fetchFieldOperations u o f sd' ed' = .ok ops →
       ∀ op ∈ ops, truthyStr op.id = true) :
    ∀ ids, goodTrace ids (syncFieldFull env c p fa sd ed org oid field).2.2 = true := by
  intro ids
  unfold syncFieldFull
  cases truthyOpt field.id with
  | none => rfl
  | some fid =>
      dsimp only
      simp only [goodTrace]
      exact syncFieldRun_goodTrace env c p fa sd ed org oid field fid hids ids

/-- Per-organization segment: still good. -/
theorem syncOrgRun_goodTrace (env : Env) (c : Clock) (p : String → Option Int)
    (fa : String) (sd ed : Option String) (org : Org)
    (hids : ∀ u o f sd' ed' ops, env.fetchFieldOperations u o f sd' ed' = .ok ops →
       ∀ op ∈ ops, truthyStr op.id = true) :
    ∀ ids, goodTrace ids (syncOrgRun env c p fa sd ed org).2.2.2 = true := by
  intro ids
  unfold syncOrgRun
  cases truthyOpt org.id with
  | none => rfl
  | some oid =>
      dsimp only
      cases get_fields env fa oid true with
      | error e => rfl
      | ok fields =>
          dsimp only
          simp only [goodTrace]
          apply goodTrace_flatten
          intro l hl
          simp only [List.map_map, List.mem_map, Function.comp] at hl
          obtain ⟨fld, _, hfld⟩ := hl
          exact hfld ▸ syncFieldFull_goodTrace env c p fa sd ed org oid fld hids []

/-- The organization-persistence prefix performs no raw/normalized writes. -/
theorem goodTrace_saveOrgs (uid : String) : ∀ (orgs : List Org) (ids : List String),
    goodTrace ids (orgs.map (Eff.saveOrganization uid)) = true := by
  intro orgs
  induction orgs with
  | nil => intro ids; rfl
  | cons o rest ih =>
      intro ids
      simp only [List.map_cons, goodTrace]
      exact ih ids

/-- The whole farmer-sweep trace is good when every fetched operation has a
truthy vendor id. -/
theorem sfd_goodTrace (env : Env) (c : Clock) (p : String → Option Int)
    (fa : String) (ofil sd ed : Option String)
    (hids : ∀ u o f sd' ed' ops, env.fetchFieldOperations u o f sd' ed' = .ok ops →
       ∀ op ∈ ops, truthyStr op.id = true) :
    goodTrace [] (sync_farmer_data env c p fa ofil sd ed).2 = true := by
  unfold sync_farmer_data get_organizations
  cases env.fetchOrganizations fa with
  | error e => rfl
  | ok orgs0 =>
      dsimp only
      apply goodTrace_append
      · exact goodTrace_saveOrgs fa _ []
      · apply goodTrace_flatten
        intro l hl
        simp only [List.map_map, List.mem_map, Function.comp] at hl
        obtain ⟨org, _, horg⟩ := hl
        exact horg ▸ syncOrgRun_goodTrace env c p fa sd ed org hids []

/-- Upserting under one key keeps every present key present. -/
theorem upsertRow_any_key (rows : List RawRow) (row : RawRow) (k' : String)
    (hrow : row.operation_id = some k') (k : String)
    (h : rows.any (fun r => r.operation_id == some k) = true) :
    (upsertRow (fun r => r.operation_id == some k') row rows).any
      (fun r => r.operation_id == some k) = true := by
  unfold upsertRow
  by_cases hex : rows.any (fun r => r.operation_id == some k') = true
  · rw [if_pos hex]
    rcases List.any_eq_true.mp h with ⟨r, hr, hrk⟩
    apply List.any_eq_true.mpr
    by_cases hkk : (r.operation_id == some k') = true
    · refine ⟨row, List.mem_map.mpr ⟨r, hr, by simp [hkk]⟩, ?_⟩
      have h1 : r.operation_id = some k := eq_of_beq hrk
      have h2 : r.operation_id = some k' := eq_of_beq hkk
      rw [h1] at h2
      injection h2 with hkeq
      rw [hrow, ← hkeq]
      simp
    · refine ⟨r, List.mem_map.mpr ⟨r, hr, by simp [hkk]⟩, hrk⟩
  · rw [if_neg hex]
    rw [List.any_append]
    simp [h]

/-- Applying any write preserves the presence of a raw id. -/
theorem rawIdPresent_applyEff (nowS : String) (db : DB) (e : Eff) (k : String)
    (h : rawIdPresent db k = true) :
    rawIdPresent (applyEff nowS db e) k = true := by
  unfold rawIdPresent at h ⊢
  cases e
  case upsertRawOperation o f op =>
    unfold applyEff
    dsimp only
    cases hid : op.id with
    | none =>
        dsimp only
        rw [List.any_append]
        simp [h]
    | some k' =>
        dsimp only
        exact upsertRow_any_key db.operations_raw _ k' rfl k h
  case saveSyncState fa' o' f' fn m sd' ed' =>
    unfold applyEff
    cases o' with
    | none => cases f' <;> exact h
    | some o'' => cases f' <;> exact h
  all_goals exact h

/-- The upserted raw row's own key becomes present. -/
theorem rawIdPresent_applyEff_newKey (nowS : String) (db : DB) (o f : String)
    (op : RawOp) (k' : String) (hid : op.id = some k') :
    rawIdPresent (applyEff nowS db (.upsertRawOperation o f op)) k' = true := by
  unfold applyEff rawIdPresent
  dsimp only
  rw [hid]
  dsimp only
  unfold upsertRow
  by_cases hex : db.operations_raw.any (fun r => r.operation_id == some k') = true
  · rw [if_pos hex]
    rcases List.any_eq_true.mp hex with ⟨r, hr, hrk⟩
    apply List.any_eq_true.mpr
    refine ⟨_, List.mem_map.mpr ⟨r, hr, rfl⟩, ?_⟩
    simp [hrk, hid]
  · rw [if_neg hex]
    apply List.any_eq_true.mpr
    refine ⟨_, List.mem_append.mpr (Or.inr (List.mem_singleton.mpr rfl)), ?_⟩
    simp [hid]

/-- Every non-insert write preserves raw/normalized traceability. -/
theorem traceable_applyEff_nonInsert (nowS : String) (db : DB) (e : Eff)
    (hni : isInsertNormalized e = false) (h : traceable db = true) :
    traceable (applyEff nowS db e) = true := by
  cases e
  case insertNormalizedOperations o f rows => simp [isInsertNormalized] at hni
  case upsertRawOperation o f op =>
    unfold traceable at h ⊢
    apply List.all_eq_true.mpr
    intro n hn
    have hp := List.all_eq_true.mp h n hn
    exact rawIdPresent_applyEff nowS db (.upsertRawOperation o f op) n.operation_id hp
  case saveSyncState fa' o' f' fn m sd' ed' =>
    unfold traceable at h ⊢
    unfold applyEff
    cases o' with
    | none => cases f' <;> exact h
    | some o'' => cases f' <;> exact h
  all_goals exact h

/-- A normalized insert of available ids preserves traceability. -/
theorem traceable_applyEff_insert (nowS : String) (db : DB) (oid fid : String)
    (rows : List DbOpRow)
    (hrows : ∀ d ∈ rows, rawIdPresent db d.operation_id = true)
    (h : traceable db = true) :
    traceable (applyEff nowS db (.insertNormalizedOperations oid fid rows)) = true := by
  unfold traceable at h ⊢
  unfold applyEff
  dsimp only
  rw [List.all_append]
  simp only [Bool.and_eq_true]
  refine ⟨h, ?_⟩
  apply List.all_eq_true.mpr
  intro d' hd'
  obtain ⟨d, hd, hdd⟩ := List.mem_map.mp hd'
  rw [← hdd]
  exact hrows d hd

/-- Replaying a good trace preserves traceability. -/
theorem goodTrace_sound : ∀ (tr : List Eff) (ids : List String) (db : DB) (nowS : String),
    (∀ k, k ∈ ids → rawIdPresent db k = true) →
    goodTrace ids tr = true → traceable db = true →
    traceable (applyEffs nowS db tr) = true := by
  intro tr
  induction tr with
  | nil => intro ids db nowS _ _ ht; exact ht
  | cons e rest ih =>
      intro ids db nowS hids hg ht
      cases e
      case upsertRawOperation o f op =>
        simp only [goodTrace] at hg
        cases hid : op.id with
        | none =>
            rw [hid] at hg
            dsimp only at hg
            refine ih _ _ _ ?_ hg
              (traceable_applyEff_nonInsert nowS db _ rfl ht)
            intro k hk
            exact rawIdPresent_applyEff nowS db _ k (hids k hk)
        | some k' =>
            rw [hid] at hg
            dsimp only at hg
            refine ih _ _ _ ?_ hg
              (traceable_applyEff_nonInsert nowS db _ rfl ht)
            intro k hk
            rcases List.mem_cons.mp hk with hk | hk
            · subst hk
              exact rawIdPresent_applyEff_newKey nowS db o f op k hid
            · exact rawIdPresent_applyEff nowS db _ k (hids k hk)
      case insertNormalizedOperations o f rows =>
        simp only [goodTrace, Bool.and_eq_true] at hg
        refine ih _ _ _ ?_ hg.2
          (traceable_applyEff_insert nowS db o f rows ?_ ht)
        · intro k hk
          exact rawIdPresent_applyEff nowS db _ k (hids k hk)
        · intro d hd
          have hc := List.all_eq_true.mp hg.1 d hd
          exact hids _ (List.elem_iff.mp hc)
      all_goals simp only [goodTrace] at hg
      all_goals
        refine ih _ _ _ ?_ hg (traceable_applyEff_nonInsert nowS db _ rfl ht)
      all_goals intro k hk
      all_goals exact rawIdPresent_applyEff nowS db _ k (hids k hk)

/-- C8 (amended): when every fetched raw operation carries a truthy vendor
`id`, the farmer sweep preserves raw/normalized traceability (every
persisted normalized row has a raw row with the same `operation_id`); the
persisted id is the vendor id when truthy—but when the vendor id is absent
(or empty) the normalized row gets the synthesized composite
`field_id-date` while the raw row is keyed NULL, so the two differ. -/
theorem C8_traceability (env : Env) (c : Clock) (p : String → Option Int)
    (fa : String) (ofil sd ed : Option String) (db0 : DB) (nowS : String)
    (hids : ∀ u o f sd' ed' ops, env.fetchFieldOperations u o f sd' ed' = .ok ops →
       ∀ op ∈ ops, truthyStr op.id = true)
    (h0 : traceable db0 = true) :
    traceable (applyEffs nowS db0 (sync_farmer_data env c p fa ofil sd ed).2) = true ∧
    (∀ (fid : String) (n : NormalizedOperation) (raw : RawOp),
       n.raw_jdoc_data = some raw →
       ((truthyStr raw.id = true → some (adaptRow fid n).operation_id = raw.id) ∧
        (truthyStr raw.id = false →
           (adaptRow fid n).operation_id = fid ++ "-" ++ toString n.date))) := by
  constructor
  · exact goodTrace_sound _ [] db0 nowS
      (fun k hk => absurd hk (List.not_mem_nil k))
      (sfd_goodTrace env c p fa ofil sd ed hids) h0
  · intro fid n raw hraw
    constructor
    · intro ht
      cases hid : raw.id with
      | none => rw [hid] at ht; simp [truthyStr] at ht
      | some k =>
          rw [hid] at ht
          have hk : k ≠ "" := by simpa [truthyStr] using ht
          rw [adaptRow_id_of_truthy fid n raw k hraw hid hk]
    · intro hf
      simp [adaptRow, hraw, pyOrStr, hf]

/-- Witness for C8: a sweep over operations carrying vendor ids leaves a
traceable database. -/
theorem C8_witness :
    traceable (applyEffs "2025-06-01T00:00:00" emptyDB
      (sync_farmer_data (constEnv [fixOrg] [fixField] [idOp])
        cClock cParse "farmer1" none none none).2) = true :=
  (C8_traceability (constEnv [fixOrg] [fixField] [idOp]) cClock cParse
    "farmer1" none none none emptyDB "2025-06-01T00:00:00"
    (fun u o f sd' ed' ops h => by
      have h' : (Except.ok [idOp] : Except String (List RawOp)) = Except.ok ops := h
      injection h' with h2
      subst h2
      intro op hop
      rw [List.mem_singleton] at hop
      subst hop
      decide)
    rfl).1

end DeereConnector
